import Mathlib

/-!
Shallow embedding of the express-backend document store and its route
handlers (the articles router `src/router/articles.ts` and the users
router shipped alongside `src/models/UserSession.ts`).  Documents live in
in-memory lists; the mongoose operations used by the handlers are
modelled by list functions following mongoose semantics:
`findOne`/`findById` return the first matching document; `Model.update`
(no `multi`) and `updateOne` modify only the first matching document;
`Model.remove` and `deleteMany` delete every matching document;
`findOneAndUpdate`/`findByIdAndUpdate` with `new: true` update the first
matching document and return the updated document; `findByIdAndRemove`
deletes the first matching document and returns it.
-/

/-- JS strings are modelled as lists of characters. -/
abbrev JStr := List Char

/-- User document (models/User.ts): identity record with a soft-delete flag. -/
structure User where
  _id : Nat
  name : JStr
  isRemoved : Bool
  created : Nat
deriving DecidableEq

/-- Session document (models/UserSession.ts): userId reference, isRemoved flag,
creation timestamp. -/
structure UserSession where
  _id : Nat
  userId : Nat
  isRemoved : Bool
  created : Nat
deriving DecidableEq

/-- Article document (models/Article.ts): title, slug derived from title,
view counter, owning user reference, ordered comment references. -/
structure Article where
  _id : Nat
  title : JStr
  text : JStr
  slug : JStr
  views : Nat
  user : Nat
  comments : List Nat
  created : Nat
deriving DecidableEq

/-- Comment document (models/Comment.ts): article reference, authoring user
reference, body text. -/
structure Comment where
  _id : Nat
  articleId : Nat
  user : Nat
  text : JStr
  created : Nat
deriving DecidableEq

/-- The four persisted collections. -/
structure DB where
  users : List User
  sessions : List UserSession
  articles : List Article
  comments : List Comment
deriving DecidableEq

/-- Request body of POST /articles and PUT /articles/:articleId. -/
structure ArticleBody where
  title : JStr
  text : JStr
  user : Nat
deriving DecidableEq

/-- Request body of POST /articles/comments. -/
structure CommentBody where
  articleId : Nat
  user : Nat
  text : JStr
deriving DecidableEq

/-- Request body of PUT /users/:userId. -/
structure UserBody where
  name : JStr
deriving DecidableEq

/-- What a handler sends back: a JSON payload, a list of validation error
messages, no response at all (the handler returns without calling
`res.json`), or an uncaught exception escaping a handler with no
try/catch. -/
inductive Response (α : Type) where
  | json : α → Response α
  | invalid : List JStr → Response α
  | empty : Response α
  | thrown : Response α
deriving DecidableEq

/-- Mongoose update without `multi: true`: modify only the first document
matching the filter. -/
def updateFirst (p : α → Bool) (f : α → α) : List α → List α
  | [] => []
  | x :: xs => if p x then f x :: xs else x :: updateFirst p f xs

/-- Mongoose `findByIdAndRemove` / removal of the single matching document:
delete the first match. -/
def removeFirst (p : α → Bool) : List α → List α
  | [] => []
  | x :: xs => if p x then xs else x :: removeFirst p xs

/-- Mongoose `Model.remove` / `deleteMany`: delete every matching document. -/
def removeAll (p : α → Bool) (l : List α) : List α :=
  l.filter (fun x => !(p x))

/-- Mongoose `findOneAndUpdate` with `new: true`: the updated first match
(if any) together with the updated collection. -/
def findOneAndUpdate (p : α → Bool) (f : α → α) (l : List α) :
    Option α × List α :=
  ((l.find? p).map f, updateFirst p f l)

/-- Prepending a character onto the first word of a word list. -/
def consHead (c : Char) : List JStr → List JStr
  | [] => [[c]]
  | w :: ws => (c :: w) :: ws

/-- JS `String.prototype.split` with a single-character separator, on the
character-list model of strings. -/
def jsSplit (sep : Char) : JStr → List JStr
  | [] => [[]]
  | c :: cs =>
    if c = sep then [] :: jsSplit sep cs
    else consHead c (jsSplit sep cs)

/-- JS `Array.prototype.join` with a single-character separator. -/
def jsJoin (sep : Char) : List JStr → JStr
  | [] => []
  | [w] => w
  | w :: ws => w ++ sep :: jsJoin sep ws

/-- JS `String.prototype.toLowerCase`, character by character. -/
def jsToLower (s : JStr) : JStr := s.map Char.toLower

/-- Slug computation of the PUT /articles/:articleId handler:
`req.body.title.split(' ').join('-').toLowerCase()`. -/
def slugOfTitle (title : JStr) : JStr :=
  jsToLower (jsJoin '-' (jsSplit ' ' title))

/-- The slug formula as the spec states it: the title with each space
replaced by a hyphen, then lowercased. -/
def slugSpecFormula (title : JStr) : JStr :=
  jsToLower (title.map (fun c => if c = ' ' then '-' else c))

/-- Modelled from the spec: `src/models/Article.ts` is not among the source
files, so the create-time slug derivation lives outside them; per the spec,
on create the slug is the title with spaces replaced by hyphens, lowercased,
the view counter starts at zero and the comment list starts empty. -/
def createArticle (newId now : Nat) (body : ArticleBody) : Article :=
  { _id := newId, title := body.title, text := body.text,
    slug := slugSpecFormula body.title,
    views := 0, user := body.user, comments := [], created := now }

/-- The duplicate-title error message of the articles router. -/
def dupTitleMsg : JStr := "Article with the same title already exists".data

/-- GET /articles: find all, sort by created descending, skip, limit 10
(population does not change which articles are returned). -/
def getArticles (skip : Nat) (db : DB) : List Article :=
  (((db.articles.mergeSort (fun a b => b.created ≤ a.created)).drop skip).take 10)

/-- POST /articles handler: validation gate, then pre-write title-existence
check, then `Article.create(req.body)` and a re-read of the new article. -/
def postArticle (errs : List JStr) (newId now : Nat) (body : ArticleBody)
    (db : DB) : Response (Option Article) × DB :=
  if errs ≠ [] then (.invalid errs, db)
  else
    match db.articles.find? (fun a => a.title = body.title) with
    | some _ => (.invalid [dupTitleMsg], db)
    | none =>
      let newArticle := createArticle newId now body
      let articles' := db.articles ++ [newArticle]
      (.json (articles'.find? (fun a => a._id = newArticle._id)),
        { db with articles := articles' })

/-- The write path of PUT /articles/:articleId: recompute the slug from the
supplied title and `findByIdAndUpdate` with `$set: {...req.body, slug}`,
returning the updated document (`new: true`). -/
def applyPut (articleId : Nat) (body : ArticleBody) (db : DB) :
    Response (Option Article) × DB :=
  let slug := slugOfTitle body.title
  let (article?, articles') := findOneAndUpdate (fun a => a._id = articleId)
    (fun a => { a with title := body.title, text := body.text,
                       user := body.user, slug := slug })
    db.articles
  (.json article?, { db with articles := articles' })

/-- PUT /articles/:articleId handler: validation gate, then the duplicate
check `validationArticle && String(validationArticle._id) !== articleId`,
then the write path. -/
def putArticle (errs : List JStr) (articleId : Nat) (body : ArticleBody)
    (db : DB) : Response (Option Article) × DB :=
  if errs ≠ [] then (.invalid errs, db)
  else
    match db.articles.find? (fun a => a.title = body.title) with
    | some a =>
      if a._id ≠ articleId then (.invalid [dupTitleMsg], db)
      else applyPut articleId body db
    | none => applyPut articleId body db

/-- DELETE /articles/:articleId handler: `findByIdAndRemove`; only when an
article was found, delete all comments referencing it and respond. -/
def deleteArticle (articleId : Nat) (db : DB) : Response Article × DB :=
  match db.articles.find? (fun a => a._id = articleId) with
  | none => (.empty, db)
  | some a =>
    let db1 := { db with articles := removeFirst (fun x => x._id = articleId) db.articles }
    let db2 := { db1 with comments := removeAll (fun c => c.articleId = a._id) db1.comments }
    (.json a, db2)

/-- GET /articles/views/:slug handler: `findOneAndUpdate({slug}, {$inc:
{views: 1}}, {new: true})`. -/
def getArticleViews (slug : JStr) (db : DB) : Response (Option Article) × DB :=
  let (article?, articles') := findOneAndUpdate (fun a => a.slug = slug)
    (fun a => { a with views := a.views + 1 }) db.articles
  (.json article?, { db with articles := articles' })

/-- POST /articles/comments handler: validation gate, `Comment.create`,
then `updateOne` pushing the new comment id onto the parent article. -/
def postComment (errs : List JStr) (newId now : Nat) (body : CommentBody)
    (db : DB) : Response Comment × DB :=
  if errs ≠ [] then (.invalid errs, db)
  else
    let comment : Comment := { _id := newId, articleId := body.articleId,
                               user := body.user, text := body.text, created := now }
    let db1 := { db with comments := db.comments ++ [comment] }
    let articles' := updateFirst (fun a => a._id = body.articleId)
      (fun a => { a with comments := a.comments ++ [newId] }) db1.articles
    (.json comment, { db1 with articles := articles' })

/-- DELETE /articles/comments/:commentId handler: `findByIdAndRemove` on the
comment only, always responding with the (possibly null) removed comment. -/
def deleteComment (commentId : Nat) (db : DB) : Response (Option Comment) × DB :=
  (.json (db.comments.find? (fun c => c._id = commentId)),
    { db with comments := removeFirst (fun c => c._id = commentId) db.comments })

/-- PUT /users/:userId handler: validation gate, then `findOneAndUpdate`
applying `$set: req.body` with `new: true`. -/
def putUser (errs : List JStr) (userId : Nat) (body : UserBody) (db : DB) :
    Response (Option User) × DB :=
  if errs ≠ [] then (.invalid errs, db)
  else
    let (user?, users') := findOneAndUpdate (fun u => u._id = userId)
      (fun u => { u with name := body.name }) db.users
    (.json user?, { db with users := users' })

/-- DELETE /users/:userId handler: soft-delete the user via
`findOneAndUpdate`; `UserSession.update` (no `multi`, hence first match
only) on the user's non-removed sessions; then `Article.remove` and
`Comment.remove` keyed on `user._id` — which throws on a null `user`
before either remove runs, and the users router has no try/catch. -/
def deleteUser (userId : Nat) (db : DB) : Response User × DB :=
  let (user?, users') := findOneAndUpdate (fun u => u._id = userId)
    (fun u => { u with isRemoved := true }) db.users
  let sessions' := updateFirst (fun s => s.userId = userId && s.isRemoved = false)
    (fun s => { s with isRemoved := true }) db.sessions
  let db1 := { db with users := users', sessions := sessions' }
  match user? with
  | none => (.thrown, db1)
  | some u =>
    let db2 := { db1 with articles := removeAll (fun a => a.user = u._id) db1.articles }
    let db3 := { db2 with comments := removeAll (fun c => c.user = u._id) db2.comments }
    (.json u, db3)

/-- A route registration: the validator middlewares attached between the
path and the handler, and whether the handler begins by consulting
`validationResult`. -/
structure RouteReg where
  middlewares : List JStr
  checksValidation : Bool
deriving DecidableEq

/-- `router.post('/', articleValidators, ...)` in articles.ts. -/
def articlesPostReg : RouteReg :=
  { middlewares := ["articleValidators".data], checksValidation := true }

/-- `router.put('/:articleId', articleValidators, ...)` in articles.ts. -/
def articlesPutReg : RouteReg :=
  { middlewares := ["articleValidators".data], checksValidation := true }

/-- `router.delete('/:articleId', ...)` in articles.ts: handler only. -/
def articlesDeleteReg : RouteReg :=
  { middlewares := [], checksValidation := false }

/-- `router.post('/comments', commentValidators, ...)` in articles.ts. -/
def commentsPostReg : RouteReg :=
  { middlewares := ["commentValidators".data], checksValidation := true }

/-- `router.delete('/comments/:commentId', ...)` in articles.ts. -/
def commentsDeleteReg : RouteReg :=
  { middlewares := [], checksValidation := false }

/-- `router.put('/:userId', editUserValidators, ...)` in the users router. -/
def usersPutReg : RouteReg :=
  { middlewares := ["editUserValidators".data], checksValidation := true }

/-- `router.delete('/:userId', ...)` in the users router: handler only. -/
def usersDeleteReg : RouteReg :=
  { middlewares := [], checksValidation := false }

/-- A sample user. -/
def exUser : User :=
  { _id := 0, name := "u".data, isRemoved := false, created := 0 }

/-- A first live session of the sample user. -/
def exSession1 : UserSession :=
  { _id := 1, userId := 0, isRemoved := false, created := 0 }

/-- A second live session of the sample user. -/
def exSession2 : UserSession :=
  { _id := 2, userId := 0, isRemoved := false, created := 1 }

/-- A sample article authored by the sample user, referencing one comment. -/
def exArticle : Article :=
  { _id := 5, title := "T".data, text := [], slug := "t".data, views := 3,
    user := 0, comments := [9], created := 7 }

/-- A second sample article with a distinct title. -/
def exArticle2 : Article :=
  { _id := 6, title := "U".data, text := [], slug := "u".data, views := 0,
    user := 0, comments := [], created := 8 }

/-- The comment referenced by the sample article. -/
def exComment : Comment :=
  { _id := 9, articleId := 5, user := 0, text := [], created := 8 }

/-- A sample store: one user, two live sessions, two articles, one comment. -/
def exDB : DB :=
  { users := [exUser], sessions := [exSession1, exSession2],
    articles := [exArticle, exArticle2], comments := [exComment] }

/-- A sample update body carrying a fresh title. -/
def exPutBody : ArticleBody :=
  { title := "New Title".data, text := "b".data, user := 0 }

/-- The sample article as stored after updating it with `exPutBody`. -/
def exUpdatedArticle : Article :=
  { exArticle with title := exPutBody.title, text := exPutBody.text,
                   user := exPutBody.user,
                   slug := slugOfTitle exPutBody.title }

/-- Unfolding `jsJoin` on a list with at least two words. -/
lemma jsJoin_two (rep : Char) (w x : JStr) (ws : List JStr) :
    jsJoin rep (w :: x :: ws) = w ++ rep :: jsJoin rep (x :: ws) := rfl

/-- JS `split` never yields an empty word list. -/
lemma jsSplit_ne_nil (sep : Char) (t : JStr) : jsSplit sep t ≠ [] := by
  cases t with
  | nil => simp [jsSplit]
  | cons c cs =>
    simp only [jsSplit]
    split_ifs
    · simp
    · cases h : jsSplit sep cs <;> simp [consHead]

/-- Joining a split with a replacement separator is character-wise
replacement of the separator. -/
lemma jsJoin_jsSplit (sep rep : Char) (t : JStr) :
    jsJoin rep (jsSplit sep t) = t.map (fun c => if c = sep then rep else c) := by
  induction t with
  | nil => rfl
  | cons c cs ih =>
    simp only [jsSplit]
    cases h : jsSplit sep cs with
    | nil => exact absurd h (jsSplit_ne_nil sep cs)
    | cons w ws =>
      rw [h] at ih
      by_cases hc : c = sep
      · rw [if_pos hc, jsJoin_two, List.nil_append, List.map_cons,
          if_pos hc, ih]
      · rw [if_neg hc, consHead, List.map_cons, if_neg hc]
        cases ws with
        | nil => simpa [jsJoin] using ih
        | cons x xs =>
          rw [jsJoin_two, ← ih, jsJoin_two]
          simp

/-- Members of `updateFirst` are old members or the image of a matching
old member. -/
lemma mem_updateFirst {α : Type} {p : α → Bool} {f : α → α} {l : List α} {x : α}
    (hx : x ∈ updateFirst p f l) : x ∈ l ∨ ∃ y ∈ l, p y = true ∧ x = f y := by
  induction l with
  | nil => simp [updateFirst] at hx
  | cons a tl ih =>
    simp only [updateFirst] at hx
    by_cases ha : p a = true
    · rw [if_pos ha] at hx
      rcases List.mem_cons.mp hx with rfl | h
      · exact Or.inr ⟨a, List.mem_cons_self a tl, ha, rfl⟩
      · exact Or.inl (List.mem_cons_of_mem a h)
    · rw [if_neg ha] at hx
      rcases List.mem_cons.mp hx with rfl | h
      · exact Or.inl (List.mem_cons_self x tl)
      · rcases ih h with h' | ⟨y, hy, hp, he⟩
        · exact Or.inl (List.mem_cons_of_mem a h')
        · exact Or.inr ⟨y, List.mem_cons_of_mem a hy, hp, he⟩

/-- The updated image of the first match is a member of `updateFirst`. -/
lemma updateFirst_find?_mem {α : Type} {p : α → Bool} {f : α → α} {l : List α}
    {y : α} (h : l.find? p = some y) : f y ∈ updateFirst p f l := by
  induction l with
  | nil => simp at h
  | cons a tl ih =>
    by_cases ha : p a = true
    · rw [List.find?_cons_of_pos _ ha] at h
      cases h
      simp [updateFirst, ha]
    · rw [List.find?_cons_of_neg _ (by simpa using ha)] at h
      simp only [updateFirst, if_neg ha]
      exact List.mem_cons_of_mem a (ih h)

/-- Searching again after `updateFirst` finds the updated document, provided
the update does not change whether the filter matches. -/
lemma find?_updateFirst {α : Type} (p : α → Bool) (f : α → α)
    (hp : ∀ x, p (f x) = p x) (l : List α) :
    (updateFirst p f l).find? p = (l.find? p).map f := by
  induction l with
  | nil => rfl
  | cons a tl ih =>
    by_cases ha : p a = true
    · rw [List.find?_cons_of_pos _ ha]
      simp only [updateFirst, if_pos ha]
      rw [List.find?_cons_of_pos _ (by rw [hp]; exact ha)]
      rfl
    · rw [List.find?_cons_of_neg _ (by simpa using ha)]
      simp only [updateFirst, if_neg ha]
      rw [List.find?_cons_of_neg _ (by simpa using ha)]
      exact ih

/-- Documents that do not match the filter survive `removeFirst`. -/
lemma mem_removeFirst_of_ne {α : Type} {p : α → Bool} {l : List α} {x : α}
    (hx : x ∈ l) (hpx : p x ≠ true) : x ∈ removeFirst p l := by
  induction l with
  | nil => simp at hx
  | cons a tl ih =>
    rcases List.mem_cons.mp hx with rfl | h
    · simp only [removeFirst, if_neg hpx]
      exact List.mem_cons_self x (removeFirst p tl)
    · by_cases ha : p a = true
      · simpa only [removeFirst, if_pos ha] using h
      · simp only [removeFirst, if_neg ha]
        exact List.mem_cons_of_mem a (ih h)

/-- When the key of every document is distinct, `removeFirst` on a key
filter leaves no document with that key. -/
lemma removeFirst_map_nodup {α β : Type} [DecidableEq β] (f : α → β) (k : β)
    (l : List α) (h : (l.map f).Nodup) :
    ∀ x ∈ removeFirst (fun a => f a = k) l, f x ≠ k := by
  induction l with
  | nil => intro x hx; simp [removeFirst] at hx
  | cons a tl ih =>
    intro x hx
    rw [List.map_cons, List.nodup_cons] at h
    by_cases ha : f a = k
    · rw [show removeFirst (fun a => f a = k) (a :: tl) = tl by
        simp [removeFirst, ha]] at hx
      intro hk
      exact h.1 (by rw [ha, ← hk]; exact List.mem_map_of_mem f hx)
    · rw [show removeFirst (fun a => f a = k) (a :: tl)
          = a :: removeFirst (fun a => f a = k) tl by
        simp [removeFirst, ha]] at hx
      rcases List.mem_cons.mp hx with rfl | h'
      · exact ha
      · exact ih h.2 x h'

/-- C2: for every article create or update that supplies a title, the stored
article's slug equals the title with each space replaced by a hyphen and
then lowercased: the update handler's `split(' ').join('-').toLowerCase()`
computation agrees with that formula everywhere, the (spec-modelled)
created article satisfies it, and immediately after the update write path
every stored article either was already stored or carries the supplied
title together with the matching slug. -/
theorem slug_matches_spec_formula (newId now articleId : Nat)
    (body : ArticleBody) (db : DB) :
    (∀ t : JStr, slugOfTitle t = slugSpecFormula t) ∧
    ((createArticle newId now body).slug
      = slugSpecFormula (createArticle newId now body).title) ∧
    (∀ a ∈ (applyPut articleId body db).2.articles,
      a ∈ db.articles ∨ (a.title = body.title ∧ a.slug = slugSpecFormula a.title)) := by
  have key : ∀ t : JStr, slugOfTitle t = slugSpecFormula t := by
    intro t
    unfold slugOfTitle slugSpecFormula
    rw [jsJoin_jsSplit]
  refine ⟨key, rfl, ?_⟩
  intro a ha
  simp only [applyPut, findOneAndUpdate] at ha
  rcases mem_updateFirst ha with h | ⟨y, _, _, he⟩
  · exact Or.inl h
  · exact Or.inr ⟨by rw [he], by rw [he]; exact key body.title⟩

/-- C2 witness: updating sample article 5 with a fresh title stores the
supplied title with the matching slug. -/
theorem slug_matches_spec_formula_witness :
    exUpdatedArticle ∈ exDB.articles ∨
    (exUpdatedArticle.title = exPutBody.title ∧
      exUpdatedArticle.slug = slugSpecFormula exUpdatedArticle.title) :=
  (slug_matches_spec_formula 6 9 5 exPutBody exDB).2.2 exUpdatedArticle
    (by decide)

/-- C3: an article-creation request whose title equals the title of an
already-stored article is answered with the duplicate-title error message
and the store is left unchanged. -/
theorem createArticle_duplicate_title_rejected (newId now : Nat)
    (body : ArticleBody) (db : DB)
    (h : ∃ a ∈ db.articles, a.title = body.title) :
    postArticle [] newId now body db = (.invalid [dupTitleMsg], db) := by
  obtain ⟨a, ha, ht⟩ := h
  cases hfind : db.articles.find? (fun x => x.title = body.title) with
  | none =>
    rw [List.find?_eq_none] at hfind
    exact absurd (by simpa using ht) (by simpa using hfind a ha)
  | some b => simp [postArticle, hfind]

/-- C3 witness: re-creating the sample article's title is rejected and
writes nothing. -/
theorem createArticle_duplicate_title_rejected_witness :
    postArticle [] 7 9 { title := "T".data, text := [], user := 0 } exDB
      = (.invalid [dupTitleMsg], exDB) :=
  createArticle_duplicate_title_rejected 7 9
    { title := "T".data, text := [], user := 0 } exDB (by decide)

/-- C10: a user-deletion request whose userId matches no stored user ends
in an uncaught exception (no try/catch in the users router): no JSON
response is produced and the article and comment collections are
untouched. -/
theorem userDelete_missing_user_throws (userId : Nat) (db : DB)
    (h : db.users.find? (fun u => u._id = userId) = none) :
    (deleteUser userId db).1 = .thrown ∧
    (deleteUser userId db).2.articles = db.articles ∧
    (deleteUser userId db).2.comments = db.comments := by
  simp [deleteUser, findOneAndUpdate, h]

/-- C10 witness: deleting the unknown user 3 from the sample store throws
and leaves articles and comments in place. -/
theorem userDelete_missing_user_throws_witness :
    (deleteUser 3 exDB).1 = .thrown ∧
    (deleteUser 3 exDB).2.articles = exDB.articles ∧
    (deleteUser 3 exDB).2.comments = exDB.comments :=
  userDelete_missing_user_throws 3 exDB (by decide)

/-- C7: an article-list request with skip count N returns at most 10
articles, pairwise ordered by creation time descending, and the returned
page is exactly the slice of the descending ordering between positions N
and N + 10 (the first N sorted articles followed by the page are the first
N + 10 sorted articles). -/
theorem listArticles_pagination (skip : Nat) (db : DB) :
    (getArticles skip db).length ≤ 10 ∧
    List.Pairwise (fun a b : Article => b.created ≤ a.created)
      (getArticles skip db) ∧
    (db.articles.mergeSort (fun a b => b.created ≤ a.created)).take skip
        ++ getArticles skip db
      = (db.articles.mergeSort (fun a b => b.created ≤ a.created)).take (skip + 10) ∧
    (getArticles skip db).Sublist
      (db.articles.mergeSort (fun a b => b.created ≤ a.created)) := by
  have hsub : (getArticles skip db).Sublist
      (db.articles.mergeSort (fun a b => b.created ≤ a.created)) := by
    unfold getArticles
    exact (List.take_sublist _ _).trans (List.drop_sublist _ _)
  refine ⟨?_, ?_, ?_, hsub⟩
  · exact List.length_take_le 10 _
  · have hs := @List.sorted_mergeSort Article
      (fun a b => decide (b.created ≤ a.created))
      (by
        intro a b c hab hbc
        simp only [decide_eq_true_eq] at *
        exact le_trans hbc hab)
      (by
        intro a b
        simp only [Bool.or_eq_true, decide_eq_true_eq]
        exact Nat.le_total b.created a.created)
      db.articles
    have hs' : List.Pairwise (fun a b : Article => b.created ≤ a.created)
        (db.articles.mergeSort (fun a b => b.created ≤ a.created)) :=
      hs.imp (by intro a b hab; simpa using hab)
    exact hs'.sublist hsub
  · unfold getArticles
    rw [List.take_add]

/-- C1 (amended): deleting an existing user responds with the user record
soft-deleted (`isRemoved = true`) and keeps it in the users collection;
the session update modifies only the first stored session of that user
whose `isRemoved` flag is false (mongoose `update` without `multi`); every
article whose user reference equals the user's id is hard-deleted, and
every comment whose user reference equals the user's id is hard-deleted. -/
theorem userDelete_cascade (userId : Nat) (db : DB) (u : User)
    (h : db.users.find? (fun x => x._id = userId) = some u) :
    (deleteUser userId db).1 = .json { u with isRemoved := true } ∧
    { u with isRemoved := true } ∈ (deleteUser userId db).2.users ∧
    (deleteUser userId db).2.sessions
      = updateFirst (fun s => s.userId = userId && s.isRemoved = false)
          (fun s => { s with isRemoved := true }) db.sessions ∧
    (∀ a ∈ (deleteUser userId db).2.articles, a.user ≠ userId) ∧
    (∀ a ∈ db.articles, a.user ≠ userId →
      a ∈ (deleteUser userId db).2.articles) ∧
    (∀ c ∈ (deleteUser userId db).2.comments, c.user ≠ userId) ∧
    (∀ c ∈ db.comments, c.user ≠ userId →
      c ∈ (deleteUser userId db).2.comments) := by
  have hid : u._id = userId := by simpa using List.find?_some h
  refine ⟨?_, ?_, ?_, ?_, ?_, ?_, ?_⟩
  · simp [deleteUser, findOneAndUpdate, h]
  · simp only [deleteUser, findOneAndUpdate, h, Option.map_some']
    exact updateFirst_find?_mem h
  · simp [deleteUser, findOneAndUpdate, h]
  · intro a ha
    simp only [deleteUser, findOneAndUpdate, h, Option.map_some', removeAll,
      List.mem_filter, Bool.not_eq_true', decide_eq_false_iff_not] at ha
    exact hid ▸ ha.2
  · intro a ha hne
    simp only [deleteUser, findOneAndUpdate, h, Option.map_some', removeAll,
      List.mem_filter, Bool.not_eq_true', decide_eq_false_iff_not]
    exact ⟨ha, hid ▸ hne⟩
  · intro c hc
    simp only [deleteUser, findOneAndUpdate, h, Option.map_some', removeAll,
      List.mem_filter, Bool.not_eq_true', decide_eq_false_iff_not] at hc
    exact hid ▸ hc.2
  · intro c hc hne
    simp only [deleteUser, findOneAndUpdate, h, Option.map_some', removeAll,
      List.mem_filter, Bool.not_eq_true', decide_eq_false_iff_not]
    exact ⟨hc, hid ▸ hne⟩

/-- C1 witness: deleting sample user 0 responds with the soft-deleted
record. -/
theorem userDelete_cascade_witness :
    (deleteUser 0 exDB).1 = .json { exUser with isRemoved := true } :=
  (userDelete_cascade 0 exDB exUser (by decide)).1

/-- C1 counterexample: user 0 of the sample store has two sessions with
`isRemoved = false`; after the delete request the second of them is still
not removed, refuting the claim that all of that user's non-removed
sessions are marked as removed. -/
theorem userDelete_second_session_not_marked :
    exSession2 ∈ exDB.sessions ∧ exSession2.userId = 0 ∧
    exSession2.isRemoved = false ∧
    exSession2 ∈ (deleteUser 0 exDB).2.sessions := by decide

/-- C4: under the title-uniqueness invariant, an article update whose
supplied title equals the title of a different stored article is rejected
with the duplicate-title error and no write occurs, while an update whose
supplied title equals the target article's own title proceeds to the
write path. -/
theorem updateArticle_title_uniqueness_check (articleId : Nat)
    (body : ArticleBody) (db : DB)
    (hu : (db.articles.map (fun a => a.title)).Nodup) :
    ((∃ b ∈ db.articles, b.title = body.title ∧ b._id ≠ articleId) →
      putArticle [] articleId body db = (.invalid [dupTitleMsg], db)) ∧
    ((∃ a ∈ db.articles, a._id = articleId ∧ a.title = body.title) →
      putArticle [] articleId body db = applyPut articleId body db) := by
  constructor
  · rintro ⟨b, hb, hbt, hbi⟩
    cases hfind : db.articles.find? (fun x => x.title = body.title) with
    | none =>
      rw [List.find?_eq_none] at hfind
      exact absurd (by simpa using hbt) (by simpa using hfind b hb)
    | some x =>
      have hx : x.title = body.title := by simpa using List.find?_some hfind
      have hxb : x = b := List.inj_on_of_nodup_map hu
        (List.mem_of_find?_eq_some hfind) hb (by rw [hx, hbt])
      rw [hxb] at hfind
      simp [putArticle, hfind, hbi]
  · rintro ⟨a, ha, hai, hat⟩
    cases hfind : db.articles.find? (fun x => x.title = body.title) with
    | none => simp [putArticle, hfind]
    | some x =>
      have hx : x.title = body.title := by simpa using List.find?_some hfind
      have hxa : x = a := List.inj_on_of_nodup_map hu
        (List.mem_of_find?_eq_some hfind) ha (by rw [hx, hat])
      rw [hxa] at hfind
      simp [putArticle, hfind, hai]

/-- C4 witness: updating sample article 5 to the title of article 6 is
rejected without a write. -/
theorem updateArticle_title_uniqueness_check_witness :
    putArticle [] 5 { title := "U".data, text := [], user := 0 } exDB
      = (.invalid [dupTitleMsg], exDB) :=
  (updateArticle_title_uniqueness_check 5
    { title := "U".data, text := [], user := 0 } exDB (by decide)).1
    (by decide)

/-- C5: when the requested article exists (ids unique), deleting it
responds with the removed article, leaves no article with that id, keeps
every other article, deletes exactly the comments whose article reference
equals its id, and touches neither users nor sessions; when it does not
exist the handler produces no response body and changes nothing. -/
theorem deleteArticle_cascades_comments (articleId : Nat) (db : DB)
    (hid : (db.articles.map (fun a => a._id)).Nodup) :
    (∀ a, db.articles.find? (fun x => x._id = articleId) = some a →
      (deleteArticle articleId db).1 = .json a ∧
      (∀ x ∈ (deleteArticle articleId db).2.articles, x._id ≠ articleId) ∧
      (∀ x ∈ db.articles, x._id ≠ articleId →
        x ∈ (deleteArticle articleId db).2.articles) ∧
      (∀ c ∈ (deleteArticle articleId db).2.comments, c.articleId ≠ a._id) ∧
      (∀ c ∈ db.comments, c.articleId ≠ a._id →
        c ∈ (deleteArticle articleId db).2.comments) ∧
      (deleteArticle articleId db).2.users = db.users ∧
      (deleteArticle articleId db).2.sessions = db.sessions) ∧
    (db.articles.find? (fun x => x._id = articleId) = none →
      deleteArticle articleId db = (.empty, db)) := by
  constructor
  · intro a h
    refine ⟨?_, ?_, ?_, ?_, ?_, ?_, ?_⟩
    · simp [deleteArticle, h]
    · intro x hx
      simp only [deleteArticle, h] at hx
      exact removeFirst_map_nodup (fun a => a._id) articleId db.articles hid x hx
    · intro x hx hne
      simp only [deleteArticle, h]
      exact mem_removeFirst_of_ne hx (by simpa using hne)
    · intro c hc
      simp only [deleteArticle, h, removeAll, List.mem_filter,
        Bool.not_eq_true', decide_eq_false_iff_not] at hc
      exact hc.2
    · intro c hc hne
      simp only [deleteArticle, h, removeAll, List.mem_filter,
        Bool.not_eq_true', decide_eq_false_iff_not]
      exact ⟨hc, hne⟩
    · simp [deleteArticle, h]
    · simp [deleteArticle, h]
  · intro h
    simp [deleteArticle, h]

/-- C5 witness: deleting sample article 5 responds with it. -/
theorem deleteArticle_cascades_comments_witness :
    (deleteArticle 5 exDB).1 = .json exArticle :=
  ((deleteArticle_cascades_comments 5 exDB (by decide)).1 exArticle
    (by decide)).1

/-- C6: a comment-deletion request hard-deletes only the comment record
(ids unique): users, sessions and the whole articles collection — every
field of every article — are unchanged, so an article that referenced the
deleted comment still carries the dangling reference afterwards. -/
theorem deleteComment_leaves_articles_unchanged (commentId : Nat) (db : DB)
    (hid : (db.comments.map (fun c => c._id)).Nodup) :
    (deleteComment commentId db).2.articles = db.articles ∧
    (deleteComment commentId db).2.users = db.users ∧
    (deleteComment commentId db).2.sessions = db.sessions ∧
    (deleteComment commentId db).1
      = .json (db.comments.find? (fun c => c._id = commentId)) ∧
    (∀ c ∈ (deleteComment commentId db).2.comments, c._id ≠ commentId) ∧
    (∀ a ∈ db.articles, commentId ∈ a.comments →
      a ∈ (deleteComment commentId db).2.articles ∧ commentId ∈ a.comments) := by
  refine ⟨rfl, rfl, rfl, rfl, ?_, ?_⟩
  · intro c hc
    have hc' : c ∈ removeFirst (fun x => decide (x._id = commentId))
        db.comments := hc
    exact removeFirst_map_nodup (fun x => x._id) commentId db.comments hid c hc'
  · intro a ha hmem
    exact ⟨ha, hmem⟩

/-- C6 witness: deleting sample comment 9 leaves article 5 with its
dangling reference to comment 9 while the comment itself is gone. -/
theorem deleteComment_leaves_articles_unchanged_witness :
    (deleteComment 9 exDB).2.articles = exDB.articles :=
  (deleteComment_leaves_articles_unchanged 9 exDB (by decide)).1

/-- C8: a view-increment request on a slug matching a stored article
returns the article with the view counter incremented by one, and the
stored article found under that slug afterwards carries exactly the
returned (post-increment) value; no other collection changes. -/
theorem viewIncrement_returns_incremented (slug : JStr) (db : DB)
    (a : Article)
    (h : db.articles.find? (fun x => x.slug = slug) = some a) :
    (getArticleViews slug db).1 = .json (some { a with views := a.views + 1 }) ∧
    (getArticleViews slug db).2.articles.find? (fun x => x.slug = slug)
      = some { a with views := a.views + 1 } ∧
    (getArticleViews slug db).2.users = db.users ∧
    (getArticleViews slug db).2.sessions = db.sessions ∧
    (getArticleViews slug db).2.comments = db.comments := by
  refine ⟨?_, ?_, rfl, rfl, rfl⟩
  · simp [getArticleViews, findOneAndUpdate, h]
  · show (updateFirst (fun x => x.slug = slug)
        (fun x => { x with views := x.views + 1 }) db.articles).find?
        (fun x => x.slug = slug) = some { a with views := a.views + 1 }
    rw [find?_updateFirst (fun x => x.slug = slug)
      (fun x => { x with views := x.views + 1 }) (fun x => rfl) db.articles, h]
    rfl

/-- C8 witness: incrementing views through slug "t" of the sample store
returns article 5 with 4 views. -/
theorem viewIncrement_returns_incremented_witness :
    (getArticleViews "t".data exDB).1
      = .json (some { exArticle with views := exArticle.views + 1 }) :=
  (viewIncrement_returns_incremented "t".data exDB exArticle (by decide)).1

/-- C9 (amended): the body-accepting mutating routes (create/update
article, create comment, update user) register a validator middleware and
on a non-empty validation error list respond with exactly that list and
write nothing, while the three delete routes (article, comment, user)
register no validator middleware at all. -/
theorem validation_gate_on_body_routes (errs : List JStr) (h : errs ≠ [])
    (newId now articleId userId : Nat) (abody : ArticleBody)
    (cbody : CommentBody) (ubody : UserBody) (db : DB) :
    postArticle errs newId now abody db = (.invalid errs, db) ∧
    putArticle errs articleId abody db = (.invalid errs, db) ∧
    postComment errs newId now cbody db = (.invalid errs, db) ∧
    putUser errs userId ubody db = (.invalid errs, db) ∧
    articlesPostReg.middlewares ≠ [] ∧
    articlesPutReg.middlewares ≠ [] ∧
    commentsPostReg.middlewares ≠ [] ∧
    usersPutReg.middlewares ≠ [] ∧
    articlesDeleteReg.middlewares = [] ∧
    commentsDeleteReg.middlewares = [] ∧
    usersDeleteReg.middlewares = [] :=
  ⟨by simp [postArticle, h], by simp [putArticle, h],
   by simp [postComment, h], by simp [putUser, h],
   by decide, by decide, by decide, by decide, rfl, rfl, rfl⟩

/-- C9 witness: a failed validation on POST /articles echoes the error
list and leaves the sample store unchanged. -/
theorem validation_gate_on_body_routes_witness :
    postArticle ["e".data] 7 9 exPutBody exDB
      = (.invalid ["e".data], exDB) :=
  (validation_gate_on_body_routes ["e".data] (by decide) 7 9 5 0 exPutBody
    { articleId := 5, user := 0, text := [] } { name := [] } exDB).1

/-- C9 counterexample: DELETE /articles/:articleId is a mutating route
registered with no validator middleware and no validation check, yet it
writes to storage (removing sample article 5 changes the store), refuting
the claim that every mutating route runs a validator before any storage
operation. -/
theorem delete_route_writes_without_validator :
    articlesDeleteReg.middlewares = [] ∧
    articlesDeleteReg.checksValidation = false ∧
    (deleteArticle 5 exDB).2 ≠ exDB := by decide
